import Mathlib

/-!
Shallow embedding of the issue-lifecycle orchestrator of the claude-code-bot
repository: the workflow engine (`src/issue_processor.py`), the polling loop and
state store (`src/polling_service.py`), and the response-parsing layer of the
text service (`src/llm_service.py`).  External collaborators (tracker client,
git helper, container runner, LLM API) are modelled as oracles supplied through
an environment record; each oracle returns `Except String α`, where the error
case models a raised Python exception.  All definitions are translated from the
source files; the one spec-derived definition (`specAtomicSave`) is named as
such and is only compared against the source-derived save model.
-/

namespace ClaudeCodeBot

/-- A Linear issue as consumed by `process_issue` and the polling loop:
`id`, `identifier`, `title`, `description` (nullable), `team.id`,
`state.name`, `branchName` (nullable). -/
structure Issue where
  id : String
  identifier : String
  title : String
  description : Option String
  teamId : String
  stateName : String
  branchName : Option String
deriving DecidableEq

/-- Externally visible actions performed during one workflow run.
`comment` and `statusUpdate` record effects that completed; the other
constructors mark that the corresponding collaborator call was attempted. -/
inductive Event where
  | comment (text : String)
  | statusUpdate (statusId : String)
  | formatCall
  | ensureCloned
  | checkoutBranch (branch : String)
  | codeGen
  | evalCall
  | draftCall
  | commitCall
  | push (branch : String)
  | prCreate (title : String)
deriving DecidableEq

/-- Which return point of `process_issue` terminated the run
(the source function returns normally on every one of these paths). -/
inductive Outcome where
  | success
  | prCreationFailed
  | nothingToCommit
  | evalFailed
  | noChanges
  | errorHandled
deriving DecidableEq

/-- Result of `json.loads` plus key lookup on an evaluation response:
either well-formed with `success`/`reasoning` fields, or malformed
(`json.JSONDecodeError` or `KeyError`, carrying `str(e)`). -/
inductive EvalResponse where
  | malformed (err : String)
  | wellFormed (success : Bool) (reasoning : String)
deriving DecidableEq

/-- Result of `json.loads` plus key lookup on a commit-message / PR-description
draft response: well-formed with both fields, or malformed. -/
inductive DraftResponse where
  | malformed (err : String)
  | wellFormed (commitMessage : String) (prDescription : String)
deriving DecidableEq

def statusInProgressName : String := "In Progress"

def statusTodoName : String := "Todo"

def statusReadyName : String := "Ready for Review"

def initialCommentBody : String :=
  "👋 ClaudeCodeBot here! I\x27m taking a look at this issue and will update shortly."

def noChangesCommentBody : String :=
  "⚠️ The code generation process did not make any changes to the codebase."

def noCommitCommentBody : String :=
  "⚠️ ClaudeCodeBot did not make any changes to the codebase."

def evalFailedCommentBody (reasoning result : String) : String :=
  "❌ ClaudeCodeBot was unsuccessful:\n\n**Reasoning:**\n" ++ reasoning ++
    "\n\n**Result:**\n```\n" ++ result ++ "\n```"

def prSuccessCommentBody (url prDescription reasoning : String) : String :=
  "✅ ClaudeCodeBot created pull request: " ++ url ++ "\n\n" ++ prDescription ++
    "\n\n**Evaluation:**\n" ++ reasoning

def prFailedCommentBody (branch : String) : String :=
  "⚠️ ClaudeCodeBot committed and pushed changes to branch `" ++ branch ++
    "`, but PR creation failed. You may need to create the PR manually."

def errorCommentBody (e : String) : String :=
  "❌ ClaudeCodeBot encountered an error while processing this issue:\n\n```\n" ++
    e ++ "\n```"

def emptyDescriptionError : String := "Issue description is empty"

def evalErrorMessage (e : String) : String := "Error evaluating result: " ++ e

def fallbackCommitMessage : String := "AI-generated changes"

def fallbackPrDescription : String :=
  "This PR was automatically generated by the AI automation system."

/-- `LLMService.evaluate_result`: on a raised API error the exception
propagates (the handler only catches `JSONDecodeError`/`KeyError`);
a malformed response yields `(False, "Error evaluating result: ...")`;
a well-formed response yields its `success`/`reasoning` fields. -/
def evaluate_result (resp : Except String EvalResponse) : Except String (Bool × String) :=
  match resp with
  | .error e => .error e
  | .ok (.malformed e) => .ok (false, evalErrorMessage e)
  | .ok (.wellFormed s r) => .ok (s, r)

/-- `LLMService.generate_pr_content`: a raised API error propagates;
a malformed response yields the hard-coded fallback commit message and PR
description; a well-formed response yields its two fields. -/
def generate_pr_content (resp : Except String DraftResponse) : Except String (String × String) :=
  match resp with
  | .error e => .error e
  | .ok (.malformed _) => .ok (fallbackCommitMessage, fallbackPrDescription)
  | .ok (.wellFormed c p) => .ok (c, p)

/-- Collaborator oracles available to one `process_issue` run.  Each field
models one external call; `.error` models a raised exception.  The LLM
response oracles are keyed on the exact arguments the source passes. -/
structure Env where
  getIssueDetails : Except String Issue
  createComment : String → String → Except String Bool
  getStatusIdByName : String → String → Except String (Option String)
  updateIssueStatus : String → String → Except String Bool
  formatIssueDescription : String → Except String String
  ensureRepoCloned : Except String Unit
  createAndCheckoutBranch : String → Except String Unit
  runCodeGeneration : String → String → Except String String
  getModifiedFiles : Except String (List String)
  evalResponse : String → String → List String → Except String EvalResponse
  draftResponse : String → String → List String → Except String DraftResponse
  commitChanges : String → Except String Bool
  pushBranch : String → Except String Unit
  createPullRequest : String → String → String → Except String (Option String)

/-- `issue["description"] or ""`. -/
def descOf (issue : Issue) : String := issue.description.getD ""

/-- `issue["branchName"] or f"ai/(identifier.lower())"`. -/
def branchOf (issue : Issue) : String :=
  let b := issue.branchName.getD ""
  if b = "" then "ai/" ++ issue.identifier.toLower else b

/-- The zero-modified-files branch of `process_issue` (lines 78-92): post the
no-changes comment, set the status back to Todo when the id resolves, return. -/
def handleNoChanges (env : Env) (issueId : String) (issue : Issue)
    (evts : List Event) : Except (String × List Event) (Outcome × List Event) :=
  match env.createComment issueId noChangesCommentBody with
  | .error e => .error (e, evts)
  | .ok _ =>
    let evts1 := evts ++ [Event.comment noChangesCommentBody]
    match env.getStatusIdByName issue.teamId statusTodoName with
    | .error e => .error (e, evts1)
    | .ok (some tid) =>
      match env.updateIssueStatus issueId tid with
      | .error e => .error (e, evts1)
      | .ok _ => .ok (Outcome.noChanges, evts1 ++ [Event.statusUpdate tid])
    | .ok none => .ok (Outcome.noChanges, evts1)

/-- The evaluation-failed branch of `process_issue` (lines 142-152): post the
failure comment with reasoning and raw result, revert the status to Todo when
the id resolves, return. -/
def reportEvalFailure (env : Env) (issueId : String) (issue : Issue)
    (result reasoning : String) (evts : List Event) :
    Except (String × List Event) (Outcome × List Event) :=
  match env.createComment issueId (evalFailedCommentBody reasoning result) with
  | .error e => .error (e, evts)
  | .ok _ =>
    let evts1 := evts ++ [Event.comment (evalFailedCommentBody reasoning result)]
    match env.getStatusIdByName issue.teamId statusTodoName with
    | .error e => .error (e, evts1)
    | .ok (some tid) =>
      match env.updateIssueStatus issueId tid with
      | .error e => .error (e, evts1)
      | .ok _ => .ok (Outcome.evalFailed, evts1 ++ [Event.statusUpdate tid])
    | .ok none => .ok (Outcome.evalFailed, evts1)

/-- The successful-evaluation branch of `process_issue` (lines 99-141):
draft commit message and PR description, commit (finish with a comment if
nothing to commit), push, open the PR (comment a fallback message if PR
creation returned None), else comment the link and advance the status. -/
def publishResult (env : Env) (issueId : String) (issue : Issue)
    (formattedDescription result reasoning : String) (modifiedFiles : List String)
    (evts : List Event) : Except (String × List Event) (Outcome × List Event) :=
  let evts1 := evts ++ [Event.draftCall]
  match generate_pr_content (env.draftResponse formattedDescription result modifiedFiles) with
  | .error e => .error (e, evts1)
  | .ok (commitMessage, prDescription) =>
    let evts2 := evts1 ++ [Event.commitCall]
    match env.commitChanges commitMessage with
    | .error e => .error (e, evts2)
    | .ok true =>
      let b := branchOf issue
      let evts3 := evts2 ++ [Event.push b]
      match env.pushBranch b with
      | .error e => .error (e, evts3)
      | .ok _ =>
        let prTitle := issue.identifier ++ ": " ++ issue.title
        let evts4 := evts3 ++ [Event.prCreate prTitle]
        match env.createPullRequest b prTitle prDescription with
        | .error e => .error (e, evts4)
        | .ok (some url) =>
          match env.createComment issueId (prSuccessCommentBody url prDescription reasoning) with
          | .error e => .error (e, evts4)
          | .ok _ =>
            let evts5 := evts4 ++ [Event.comment (prSuccessCommentBody url prDescription reasoning)]
            match env.getStatusIdByName issue.teamId statusReadyName with
            | .error e => .error (e, evts5)
            | .ok (some rid) =>
              match env.updateIssueStatus issueId rid with
              | .error e => .error (e, evts5)
              | .ok _ => .ok (Outcome.success, evts5 ++ [Event.statusUpdate rid])
            | .ok none => .ok (Outcome.success, evts5)
        | .ok none =>
          match env.createComment issueId (prFailedCommentBody b) with
          | .error e => .error (e, evts4)
          | .ok _ => .ok (Outcome.prCreationFailed, evts4 ++ [Event.comment (prFailedCommentBody b)])
    | .ok false =>
      match env.createComment issueId noCommitCommentBody with
      | .error e => .error (e, evts2)
      | .ok _ => .ok (Outcome.nothingToCommit, evts2 ++ [Event.comment noCommitCommentBody])

/-- `process_issue` lines 94-152: evaluate, then publish or report. -/
def evaluateAndPublish (env : Env) (issueId : String) (issue : Issue)
    (formattedDescription result : String) (modifiedFiles : List String)
    (evts : List Event) : Except (String × List Event) (Outcome × List Event) :=
  let evts1 := evts ++ [Event.evalCall]
  match evaluate_result (env.evalResponse formattedDescription result modifiedFiles) with
  | .error e => .error (e, evts1)
  | .ok (true, reasoning) =>
    publishResult env issueId issue formattedDescription result reasoning modifiedFiles evts1
  | .ok (false, reasoning) =>
    reportEvalFailure env issueId issue result reasoning evts1

/-- The body of the `try:` block of `process_issue` (lines 32-152): fetch
details, acknowledge, move to In Progress, reject an empty description,
format, prepare the workspace, generate, then branch on modified files.
An error carries the events that had completed when the exception was
raised. -/
def process_issue_body (env : Env) (issueId : String) :
    Except (String × List Event) (Outcome × List Event) :=
  match env.getIssueDetails with
  | .error e => .error (e, [])
  | .ok issue =>
    match env.createComment issueId initialCommentBody with
    | .error e => .error (e, [])
    | .ok _ =>
      let evts0 := [Event.comment initialCommentBody]
      match env.getStatusIdByName issue.teamId statusInProgressName with
      | .error e => .error (e, evts0)
      | .ok inProgressId =>
        match (match inProgressId with
               | some sid =>
                 match env.updateIssueStatus issueId sid with
                 | .error e => Except.error e
                 | .ok _ => Except.ok (evts0 ++ [Event.statusUpdate sid])
               | none => Except.ok evts0) with
        | .error e => .error (e, evts0)
        | .ok evts1 =>
          if descOf issue = "" then .error (emptyDescriptionError, evts1)
          else
            let evts2 := evts1 ++ [Event.formatCall]
            match env.formatIssueDescription (descOf issue) with
            | .error e => .error (e, evts2)
            | .ok formattedDescription =>
              let evts3 := evts2 ++ [Event.ensureCloned]
              match env.ensureRepoCloned with
              | .error e => .error (e, evts3)
              | .ok _ =>
                let evts4 := evts3 ++ [Event.checkoutBranch (branchOf issue)]
                match env.createAndCheckoutBranch (branchOf issue) with
                | .error e => .error (e, evts4)
                | .ok _ =>
                  let evts5 := evts4 ++ [Event.codeGen]
                  match env.runCodeGeneration (descOf issue) formattedDescription with
                  | .error e => .error (e, evts5)
                  | .ok result =>
                    match env.getModifiedFiles with
                    | .error e => .error (e, evts5)
                    | .ok modifiedFiles =>
                      if modifiedFiles.length = 0 then
                        handleNoChanges env issueId issue evts5
                      else
                        evaluateAndPublish env issueId issue formattedDescription
                          result modifiedFiles evts5

/-- `process_issue` (lines 25-162).  The `except` clause at the top level
(lines 154-162) catches every exception from the body, logs it, best-effort
posts an error comment (swallowing a secondary failure from that comment),
and returns normally — it does not re-raise. -/
def process_issue (env : Env) (issueId : String) :
    Except String (Outcome × List Event) :=
  match process_issue_body env issueId with
  | .ok r => .ok r
  | .error (e, evts) =>
    match env.createComment issueId (errorCommentBody e) with
    | .ok _ => .ok (Outcome.errorHandled, evts ++ [Event.comment (errorCommentBody e)])
    | .error _ => .ok (Outcome.errorHandled, evts)

/-- The outcome of a completed run, `none` when the run raised. -/
def outcomeOf (r : Except String (Outcome × List Event)) : Option Outcome :=
  match r with
  | .ok (o, _) => some o
  | .error _ => none

/-- The event trace of a completed run, `[]` when the run raised. -/
def traceOf (r : Except String (Outcome × List Event)) : List Event :=
  match r with
  | .ok (_, t) => t
  | .error _ => []

/-- The status id of the last `update_issue_status` call in a trace. -/
def lastStatusUpdate (evts : List Event) : Option String :=
  evts.foldl (fun acc e => match e with | .statusUpdate s => some s | _ => acc) none

/-- The status ids of all `update_issue_status` calls in a trace, in order. -/
def statusUpdatesOf (evts : List Event) : List String :=
  evts.filterMap (fun e => match e with | .statusUpdate s => some s | _ => none)

/-! ### Poll loop and state store (`src/polling_service.py`) -/

/-- The in-memory state of `LinearPollingService`: `processed_issues` and
`in_progress_issues`, both Python sets of issue-id strings. -/
structure PollState where
  processed : Finset String
  inProgress : Finset String
deriving DecidableEq

/-- `_load_state`: `none` models a missing file, `some (.error e)` a
read/parse failure, `some (.ok (p, ip))` a successfully parsed file; the
sets start empty and are only replaced on a fully successful parse. -/
def load_state (file : Option (Except String (List String × List String))) : PollState :=
  match file with
  | none => ⟨∅, ∅⟩
  | some (.error _) => ⟨∅, ∅⟩
  | some (.ok (p, ip)) => ⟨p.toFinset, ip.toFinset⟩

/-- One iteration of the `for issue in new_issues` loop of
`_process_new_issues` (lines 84-111): skip non-Todo issues; otherwise add the
id to `in_progress_issues` and save, run `process_issue`, and on a normal
return add the id to `processed_issues`, remove it from `in_progress_issues`
and save again; on a raised exception keep the id in `in_progress_issues`
(and save nothing).  Returns the new state, the snapshots saved, and the ids
dispatched to `process_issue`. -/
def processOne (run : String → Except String (Outcome × List Event))
    (s : PollState) (issue : Issue) : PollState × List PollState × List String :=
  if issue.stateName = statusTodoName then
    let s1 : PollState := ⟨s.processed, insert issue.id s.inProgress⟩
    match run issue.id with
    | .ok _ =>
      let s2 : PollState := ⟨insert issue.id s1.processed, s1.inProgress.erase issue.id⟩
      (s2, [s1, s2], [issue.id])
    | .error _ => (s1, [s1], [issue.id])
  else (s, [], [])

/-- The whole `for issue in new_issues` loop, in list order. -/
def processList (run : String → Except String (Outcome × List Event))
    (s : PollState) : List Issue → PollState × List PollState × List String
  | [] => (s, [], [])
  | issue :: rest =>
    let r1 := processOne run s issue
    let r2 := processList run r1.1 rest
    (r2.1, r1.2.1 ++ r2.2.1, r1.2.2 ++ r2.2.2)

/-- `_process_new_issues` (lines 67-121): fetch the candidate issues (the
surrounding `try` catches a raised fetch, leaving the state untouched),
filter out ids already in `processed_issues` or `in_progress_issues`, and
run the dispatch loop over the remainder. -/
def process_new_issues (run : String → Except String (Outcome × List Event))
    (s : PollState) (fetch : Except String (List Issue)) :
    PollState × List PollState × List String :=
  match fetch with
  | .error _ => (s, [], [])
  | .ok aiIssues =>
    let newIssues := aiIssues.filter
      (fun issue => decide (issue.id ∉ s.processed ∧ issue.id ∉ s.inProgress))
    processList run s newIssues

/-- `start_polling` unrolled over a finite stream of per-tick fetch results:
each tick runs `_process_new_issues` (which never raises) and the loop
continues to the next tick.  Returns the final state and all snapshots
saved across the ticks. -/
def start_polling_ticks (run : String → Except String (Outcome × List Event)) :
    PollState → List (Except String (List Issue)) → PollState × List PollState
  | s, [] => (s, [])
  | s, fetch :: rest =>
    let r1 := process_new_issues run s fetch
    let r2 := start_polling_ticks run r1.1 rest
    (r2.1, r1.2.1 ++ r2.2)

/-- `_get_ai_tagged_issues` lines 130-136, the created-after boundary:
`start_time` when `POLL_LOOKBACK_DAYS == 0`, otherwise
`datetime.now() - timedelta(days=POLL_LOOKBACK_DAYS)`.  Time is modelled as
an integer count of days. -/
def get_lookback_date (pollLookbackDays : Nat) (startTime now : Int) : Int :=
  if pollLookbackDays = 0 then startTime else now - pollLookbackDays

/-! ### The snapshot write (`_save_state`, lines 51-65) -/

/-- One filesystem operation on the state file.  `openTruncate` is the
truncation performed by `open(path, "w")`; `write` appends a chunk;
`renameInto` is the atomic replace-by-rename a temp-file scheme would use
(never emitted by the source). -/
inductive FsOp where
  | openTruncate
  | write (chunk : String)
  | closeFile
  | renameInto (content : String)
deriving DecidableEq

/-- `json.dumps` of the state dictionary: both id lists in full plus the
`last_updated` timestamp (the pretty-printer's whitespace is abstracted). -/
def serializeState (processedL inProgressL : List String) (lastUpdated : String) : String :=
  "\x7b\"processed_issues\": [" ++
    String.intercalate ", " (processedL.map (fun s => "\"" ++ s ++ "\"")) ++
  "], \"in_progress_issues\": [" ++
    String.intercalate ", " (inProgressL.map (fun s => "\"" ++ s ++ "\"")) ++
  "], \"last_updated\": \"" ++ lastUpdated ++ "\"\x7d"

/-- `_save_state`: `open(path, "w")` truncates the target in place, then
`json.dump` writes the serialized snapshot into it; there is no temporary
file and no rename. -/
def save_state_ops (processedL inProgressL : List String) (lastUpdated : String) : List FsOp :=
  [FsOp.openTruncate, FsOp.write (serializeState processedL inProgressL lastUpdated),
   FsOp.closeFile]

/-- Effect of one filesystem operation on the visible content of the
state file. -/
def applyFsOp (content : String) : FsOp → String
  | .openTruncate => ""
  | .write chunk => content ++ chunk
  | .closeFile => content
  | .renameInto c => c

/-- Every content of the state file a concurrent reader could observe while
the operation sequence runs, starting from `oldContent`. -/
def observableContents (oldContent : String) (ops : List FsOp) : List String :=
  ops.scanl applyFsOp oldContent

/-- The content of the state file after the operation sequence finishes. -/
def finalContent (oldContent : String) (ops : List FsOp) : String :=
  ops.foldl applyFsOp oldContent

/-- Modelled from the spec (§4.1): a save is atomic from the caller's
perspective when a concurrent reader can only ever observe the old content
or the final content, never an intermediate state of the write. -/
def specAtomicSave (oldContent : String) (ops : List FsOp) : Prop :=
  ∀ c ∈ observableContents oldContent ops, c = oldContent ∨ c = finalContent oldContent ops

instance (oldContent : String) (ops : List FsOp) : Decidable (specAtomicSave oldContent ops) :=
  inferInstanceAs (Decidable (∀ c ∈ observableContents oldContent ops,
    c = oldContent ∨ c = finalContent oldContent ops))

/-- Whether the trace contains a branch push attempt. -/
def hasPush (evts : List Event) : Bool :=
  evts.any (fun e => match e with | .push _ => true | _ => false)

/-- Whether the trace contains a pull-request creation attempt. -/
def hasPrCreate (evts : List Event) : Bool :=
  evts.any (fun e => match e with | .prCreate _ => true | _ => false)

/-- Whether the trace contains an evaluation attempt. -/
def hasEvalCall (evts : List Event) : Bool :=
  evts.any (fun e => match e with | .evalCall => true | _ => false)

/-- Whether the trace contains a commit attempt. -/
def hasCommitCall (evts : List Event) : Bool :=
  evts.any (fun e => match e with | .commitCall => true | _ => false)

/-- The events completed by a run that reached the modified-files check with
the In Progress status id resolved to `ipid`. -/
def preDetectTrace (ipid : String) (issue : Issue) : List Event :=
  [Event.comment initialCommentBody, Event.statusUpdate ipid, Event.formatCall,
   Event.ensureCloned, Event.checkoutBranch (branchOf issue), Event.codeGen]

/-! ### Concrete instances used in counterexamples and witnesses -/

/-- A Todo issue with a full description. -/
def issueX : Issue :=
  { id := "X1", identifier := "ABC-1", title := "Fix bug",
    description := some "fix the bug", teamId := "team1",
    stateName := statusTodoName, branchName := some "feature/x" }

/-- Deterministic status-name-to-id mapping used by the concrete tracker. -/
def statusIdFor (n : String) : String := n ++ "-id"

/-- An environment in which every collaborator succeeds and the happy path
runs end to end. -/
def envOkBase : Env :=
  { getIssueDetails := .ok issueX,
    createComment := fun _ _ => .ok true,
    getStatusIdByName := fun _ n => .ok (some (statusIdFor n)),
    updateIssueStatus := fun _ _ => .ok true,
    formatIssueDescription := fun d => .ok (d ++ " (formatted)"),
    ensureRepoCloned := .ok (),
    createAndCheckoutBranch := fun _ => .ok (),
    runCodeGeneration := fun _ _ => .ok "generation summary",
    getModifiedFiles := .ok ["M a.go"],
    evalResponse := fun _ _ _ => .ok (.wellFormed true "looks good"),
    draftResponse := fun _ _ _ => .ok (.wellFormed "fix: bug" "pr body"),
    commitChanges := fun _ => .ok true,
    pushBranch := fun _ => .ok (),
    createPullRequest := fun _ _ _ => .ok (some "https://pr/1") }

/-- `issueX` with a missing (`None`) description. -/
def issueEmptyDesc : Issue := { issueX with description := none }

/-- All collaborators succeed but the issue has no description, so the body
raises `Exception("Issue description is empty")` at line 56. -/
def envEmptyDesc : Env := { envOkBase with getIssueDetails := .ok issueEmptyDesc }

/-- All collaborators succeed but the generation step modifies no files. -/
def envNoChanges : Env := { envOkBase with getModifiedFiles := .ok [] }

/-- All collaborators succeed but `commit_changes` finds nothing to commit. -/
def envCommitNothing : Env := { envOkBase with commitChanges := fun _ => .ok false }

/-- All collaborators succeed but the evaluation response is malformed. -/
def envEvalMalformed : Env :=
  { envOkBase with evalResponse := fun _ _ _ => .ok (.malformed "bad json") }

/-- All collaborators succeed but the draft response is malformed. -/
def envDraftMalformed : Env :=
  { envOkBase with draftResponse := fun _ _ _ => .ok (.malformed "bad json") }

/-! ### Helper lemmas -/

/-- When every step up to change detection succeeds, the body reduces to the
branch on the number of modified files, with the pre-detection trace. -/
theorem body_reaches_detect (env : Env) (issueId : String) (issue : Issue)
    (ipid fd res : String) (mods : List String)
    (hdet : env.getIssueDetails = Except.ok issue)
    (hc1 : ∃ b, env.createComment issueId initialCommentBody = Except.ok b)
    (hip : env.getStatusIdByName issue.teamId statusInProgressName = Except.ok (some ipid))
    (hup : ∃ b, env.updateIssueStatus issueId ipid = Except.ok b)
    (hdesc : descOf issue ≠ "")
    (hfmt : env.formatIssueDescription (descOf issue) = Except.ok fd)
    (hcl : env.ensureRepoCloned = Except.ok ())
    (hbr : env.createAndCheckoutBranch (branchOf issue) = Except.ok ())
    (hgen : env.runCodeGeneration (descOf issue) fd = Except.ok res)
    (hmods : env.getModifiedFiles = Except.ok mods) :
    process_issue_body env issueId =
      if mods.length = 0 then
        handleNoChanges env issueId issue (preDetectTrace ipid issue)
      else
        evaluateAndPublish env issueId issue fd res mods (preDetectTrace ipid issue) := by
  obtain ⟨b1, hb1⟩ := hc1
  obtain ⟨b2, hb2⟩ := hup
  simp [process_issue_body, hdet, hb1, hip, hb2, hdesc, hfmt, hcl, hbr, hgen, hmods,
    preDetectTrace]

/-! ### Claim theorems -/

/-- C7: the created-after boundary of a poll query is `now` minus the
configured number of days when the lookback is positive, and is frozen at the
service-start timestamp (independent of the query-time clock) when the
configured lookback is zero. -/
theorem claim7_lookback_boundary (d : Nat) (startTime now : Int) :
    (d = 0 → get_lookback_date d startTime now = startTime) ∧
    (0 < d → get_lookback_date d startTime now = now - d) := by
  constructor
  · intro h
    simp [get_lookback_date, h]
  · intro h
    simp [get_lookback_date, Nat.pos_iff_ne_zero.mp h]

/-- Witness for C7 at `d = 0` and `d = 3`, `startTime = 5`, `now = 9`. -/
theorem claim7_lookback_boundary_witness :
    get_lookback_date 0 5 9 = 5 ∧ get_lookback_date 3 5 9 = 9 - 3 :=
  ⟨(claim7_lookback_boundary 0 5 9).1 rfl, (claim7_lookback_boundary 3 5 9).2 (by decide)⟩

/-- C10: a poll cycle whose candidate fetch raises is caught by the cycle's
`try`/`except`: the processed and in-progress sets are unchanged, no snapshot
is saved, and the loop goes on to run any number of further ticks. -/
theorem claim10_failed_cycle_harmless (run : String → Except String (Outcome × List Event))
    (s : PollState) (e : String) (n : Nat) :
    process_new_issues run s (Except.error e) = (s, [], []) ∧
    start_polling_ticks run s (List.replicate n (Except.error e)) = (s, []) := by
  refine ⟨rfl, ?_⟩
  induction n with
  | zero => rfl
  | succ k ih => simp [List.replicate_succ, start_polling_ticks, process_new_issues, ih]

/-- C3 counterexample: the state-file write is not atomic from the caller's
perspective — starting from a previously saved snapshot, a save performed by
`_save_state` exposes the truncated (empty) file to a concurrent reader, a
content that is neither the old snapshot nor the new one. -/
theorem claim3_counterexample :
    ¬ specAtomicSave (serializeState [] [] "t0")
      (save_state_ops [issueX.id] [] "t1") := by decide

/-- C3 amended: every save serializes both full sets plus the timestamp and
overwrites the whole target file — the final content is the full snapshot and
no temporary-file rename is involved — but the overwrite happens in place via
truncation, so whenever the old content and the new snapshot are visible at
all (old content nonempty), the write is not atomic from the caller's
perspective. -/
theorem claim3_save_overwrites_in_place (p ip : List String) (ts oldContent : String) :
    finalContent oldContent (save_state_ops p ip ts) = serializeState p ip ts ∧
    FsOp.openTruncate ∈ save_state_ops p ip ts ∧
    (∀ c, FsOp.renameInto c ∉ save_state_ops p ip ts) ∧
    (oldContent ≠ "" → ¬ specAtomicSave oldContent (save_state_ops p ip ts)) := by
  have hser : (serializeState p ip ts).length ≠ 0 := by
    have hp : 0 < ("\x7b\"processed_issues\": [" : String).length := by decide
    simp only [serializeState, String.length_append]
    omega
  have hfin : finalContent oldContent (save_state_ops p ip ts) = serializeState p ip ts := by
    simp [finalContent, save_state_ops, applyFsOp]
  refine ⟨hfin, by simp [save_state_ops], by intro c; simp [save_state_ops], ?_⟩
  intro hold hatomic
  have hmem : ("" : String) ∈ observableContents oldContent (save_state_ops p ip ts) := by
    simp [observableContents, save_state_ops, List.scanl, applyFsOp]
  rcases hatomic "" hmem with h | h
  · exact hold h.symm
  · rw [hfin] at h
    exact hser (by rw [← h]; rfl)

/-- Witness for C3's amended statement: a save of processed list `[a]` over an
existing nonempty snapshot writes the full serialized state in place, uses no
rename, and is observably non-atomic. -/
theorem claim3_save_overwrites_in_place_witness :
    finalContent (serializeState [] [] "t0") (save_state_ops [issueX.id] [] "t1") =
      serializeState [issueX.id] [] "t1" ∧
    FsOp.openTruncate ∈ save_state_ops [issueX.id] [] "t1" ∧
    (∀ c, FsOp.renameInto c ∉ save_state_ops [issueX.id] [] "t1") ∧
    ¬ specAtomicSave (serializeState [] [] "t0") (save_state_ops [issueX.id] [] "t1") := by
  have h := claim3_save_overwrites_in_place [issueX.id] [] "t1" (serializeState [] [] "t0")
  exact ⟨h.1, h.2.1, h.2.2.1, h.2.2.2 (by decide)⟩

/-- C1 (divergence exhibit): on a run that fails mid-workflow — an issue with
an empty description, every collaborator succeeding — `process_issue` returns
normally with the error handled internally (it posts the error comment and
does not re-raise), so the poll loop marks the ticket processed and removes
it from the in-progress set instead of leaving it in progress for retry. -/
theorem claim1_crashed_run_is_marked_processed :
    outcomeOf (process_issue envEmptyDesc issueX.id) = some Outcome.errorHandled ∧
    Event.comment (errorCommentBody emptyDescriptionError) ∈
      traceOf (process_issue envEmptyDesc issueX.id) ∧
    (process_new_issues (fun i => process_issue envEmptyDesc i) ⟨∅, ∅⟩
        (Except.ok [issueEmptyDesc])).1 = ⟨{issueX.id}, ∅⟩ := by
  refine ⟨rfl, by decide, by decide⟩

/-- C2 counterexample: a detected failure (the empty-description error, for
which a failure comment is posted) leaves the ticket's last status update at
the In Progress id — the tracker status is not set back to Todo. -/
theorem claim2_counterexample :
    Event.comment (errorCommentBody emptyDescriptionError) ∈
      traceOf (process_issue envEmptyDesc issueX.id) ∧
    lastStatusUpdate (traceOf (process_issue envEmptyDesc issueX.id)) =
      some (statusIdFor statusInProgressName) ∧
    statusIdFor statusInProgressName ≠ statusIdFor statusTodoName := by
  refine ⟨by decide, by decide, by decide⟩

/-- C2 amended: a failure that reaches the top-level error handler ends the
run as `errorHandled` with a best-effort failure comment, and the handler
performs no status update — the tracker status remains whatever the run had
last set (In Progress once the acknowledgement step has run), rather than
being reverted to Todo. -/
theorem claim2_error_path_keeps_status (env : Env) (issueId e : String) (evts : List Event)
    (h : process_issue_body env issueId = Except.error (e, evts)) :
    ∃ evts2, process_issue env issueId = Except.ok (Outcome.errorHandled, evts2) ∧
      statusUpdatesOf evts2 = statusUpdatesOf evts ∧
      (∀ b, env.createComment issueId (errorCommentBody e) = Except.ok b →
        Event.comment (errorCommentBody e) ∈ evts2) := by
  cases hc : env.createComment issueId (errorCommentBody e) with
  | ok b =>
    refine ⟨evts ++ [Event.comment (errorCommentBody e)], ?_, ?_, ?_⟩
    · simp [process_issue, h, hc]
    · simp [statusUpdatesOf, List.filterMap_append]
    · intro b2 _
      simp
  | error e2 =>
    refine ⟨evts, ?_, rfl, ?_⟩
    · simp [process_issue, h, hc]
    · intro b2 hb2
      cases hb2

/-- Witness for C2's amended statement at the empty-description run. -/
theorem claim2_error_path_keeps_status_witness :
    ∃ evts2, process_issue envEmptyDesc issueX.id = Except.ok (Outcome.errorHandled, evts2) ∧
      statusUpdatesOf evts2 = statusUpdatesOf [Event.comment initialCommentBody,
        Event.statusUpdate (statusIdFor statusInProgressName)] ∧
      (∀ b, envEmptyDesc.createComment issueX.id (errorCommentBody emptyDescriptionError) =
          Except.ok b →
        Event.comment (errorCommentBody emptyDescriptionError) ∈ evts2) :=
  claim2_error_path_keeps_status envEmptyDesc issueX.id emptyDescriptionError
    [Event.comment initialCommentBody, Event.statusUpdate (statusIdFor statusInProgressName)]
    rfl

/-- Every id dispatched by one loop iteration is the id of that iteration's
issue. -/
theorem processOne_dispatch (run : String → Except String (Outcome × List Event))
    (s : PollState) (issue : Issue) :
    ∀ x ∈ (processOne run s issue).2.2, x = issue.id := by
  unfold processOne
  split
  · split <;> simp
  · simp

/-- Every id dispatched by the loop is the id of some listed issue. -/
theorem processList_dispatch_subset (run : String → Except String (Outcome × List Event))
    (l : List Issue) : ∀ (s : PollState), ∀ x ∈ (processList run s l).2.2,
      x ∈ l.map Issue.id := by
  induction l with
  | nil => simp [processList]
  | cons issue rest ih =>
    intro s x hx
    simp only [processList, List.mem_append] at hx
    rcases hx with hx | hx
    · simp [processOne_dispatch run s issue x hx]
    · simp only [List.map_cons, List.mem_cons]
      exact Or.inr (ih _ x hx)

/-- One loop iteration preserves set exclusivity in the final state and in
every snapshot it saves, provided the issue has not been processed yet; the
processed set grows by at most that issue's id. -/
theorem processOne_invariant (run : String → Except String (Outcome × List Event))
    (s : PollState) (issue : Issue)
    (hdisj : ∀ x, ¬(x ∈ s.processed ∧ x ∈ s.inProgress))
    (hfresh : issue.id ∉ s.processed) :
    (∀ x, ¬(x ∈ (processOne run s issue).1.processed ∧
      x ∈ (processOne run s issue).1.inProgress)) ∧
    (∀ snap ∈ (processOne run s issue).2.1,
      ∀ x, ¬(x ∈ snap.processed ∧ x ∈ snap.inProgress)) ∧
    (∀ x ∈ (processOne run s issue).1.processed, x ∈ s.processed ∨ x = issue.id) := by
  have hs1 : ∀ x, ¬(x ∈ s.processed ∧ x ∈ insert issue.id s.inProgress) := by
    intro x ⟨hxp, hxi⟩
    rcases Finset.mem_insert.mp hxi with h | h
    · exact hfresh (h ▸ hxp)
    · exact hdisj x ⟨hxp, h⟩
  have hs2 : ∀ x, ¬(x ∈ insert issue.id s.processed ∧
      x ∈ (insert issue.id s.inProgress).erase issue.id) := by
    intro x ⟨hxp, hxi⟩
    obtain ⟨hne, hxi'⟩ := Finset.mem_erase.mp hxi
    rcases Finset.mem_insert.mp hxi' with h | h
    · exact hne h
    · rcases Finset.mem_insert.mp hxp with h2 | h2
      · exact hne h2
      · exact hdisj x ⟨h2, h⟩
  unfold processOne
  split
  · cases hr : run issue.id with
    | ok r =>
      refine ⟨hs2, ?_, ?_⟩
      · intro snap hsnap
        simp only [List.mem_cons, List.not_mem_nil, or_false] at hsnap
        rcases hsnap with h | h
        · exact h ▸ hs1
        · exact h ▸ hs2
      · intro x hx
        rcases Finset.mem_insert.mp hx with h | h
        · exact Or.inr h
        · exact Or.inl h
    | error e =>
      refine ⟨hs1, ?_, fun x hx => Or.inl hx⟩
      intro snap hsnap
      simp only [List.mem_cons, List.not_mem_nil, or_false] at hsnap
      exact hsnap ▸ hs1
  · exact ⟨hdisj, by simp, fun x hx => Or.inl hx⟩

/-- The dispatch loop preserves set exclusivity in the final state and in
every saved snapshot, provided no listed issue is already processed and the
listed ids are pairwise distinct; the processed set grows only by listed
ids. -/
theorem processList_invariant (run : String → Except String (Outcome × List Event))
    (l : List Issue) : ∀ (s : PollState),
    (∀ x, ¬(x ∈ s.processed ∧ x ∈ s.inProgress)) →
    (∀ i ∈ l, i.id ∉ s.processed) →
    (l.map Issue.id).Nodup →
    (∀ x, ¬(x ∈ (processList run s l).1.processed ∧
      x ∈ (processList run s l).1.inProgress)) ∧
    (∀ snap ∈ (processList run s l).2.1,
      ∀ x, ¬(x ∈ snap.processed ∧ x ∈ snap.inProgress)) ∧
    (∀ x ∈ (processList run s l).1.processed,
      x ∈ s.processed ∨ x ∈ l.map Issue.id) := by
  induction l with
  | nil => exact fun s hdisj _ _ => ⟨hdisj, by simp [processList], fun x hx => Or.inl hx⟩
  | cons issue rest ih =>
    intro s hdisj hfresh hnd
    obtain ⟨h1, h2, h3⟩ := processOne_invariant run s issue hdisj
      (hfresh issue (List.mem_cons_self issue rest))
    have hndr : (rest.map Issue.id).Nodup := (List.nodup_cons.mp hnd).2
    have hhead : issue.id ∉ rest.map Issue.id := (List.nodup_cons.mp hnd).1
    have hfreshr : ∀ i ∈ rest, i.id ∉ (processOne run s issue).1.processed := by
      intro i hi hmem
      rcases h3 i.id hmem with h | h
      · exact hfresh i (List.mem_cons_of_mem issue hi) h
      · exact hhead (h ▸ List.mem_map_of_mem Issue.id hi)
    obtain ⟨g1, g2, g3⟩ := ih (processOne run s issue).1 h1 hfreshr hndr
    refine ⟨g1, ?_, ?_⟩
    · intro snap hsnap
      simp only [processList, List.mem_append] at hsnap
      rcases hsnap with h | h
      · exact h2 snap h
      · exact g2 snap h
    · intro x hx
      simp only [processList] at hx
      rcases g3 x hx with h | h
      · rcases h3 x h with h' | h'
        · exact Or.inl h'
        · exact Or.inr (by simp [h'])
      · exact Or.inr (by simp [h])

/-- C5: starting from a snapshot in which the processed and in-progress sets
are disjoint, every snapshot saved during a poll cycle (after each
mark-in-progress and after each mark-processed) and the cycle's final state
keep the two sets disjoint — no ticket id is ever in both sets at a persisted
snapshot.  The fetched candidate list is assumed to carry pairwise distinct
ids, as issue ids identify tracker issues. -/
theorem claim5_snapshot_exclusivity (run : String → Except String (Outcome × List Event))
    (s : PollState) (l : List Issue)
    (hdisj : s.processed ∩ s.inProgress = ∅)
    (hnd : (l.map Issue.id).Nodup) :
    (∀ snap ∈ (process_new_issues run s (Except.ok l)).2.1,
      snap.processed ∩ snap.inProgress = ∅) ∧
    (process_new_issues run s (Except.ok l)).1.processed ∩
      (process_new_issues run s (Except.ok l)).1.inProgress = ∅ := by
  have hdisj' : ∀ x, ¬(x ∈ s.processed ∧ x ∈ s.inProgress) := by
    intro x ⟨h1, h2⟩
    have hx : x ∈ s.processed ∩ s.inProgress := Finset.mem_inter.mpr ⟨h1, h2⟩
    rw [hdisj] at hx
    exact Finset.not_mem_empty x hx
  have heq : process_new_issues run s (Except.ok l) = processList run s
      (l.filter (fun issue => decide (issue.id ∉ s.processed ∧ issue.id ∉ s.inProgress))) := rfl
  have hndf : ((l.filter (fun issue =>
      decide (issue.id ∉ s.processed ∧ issue.id ∉ s.inProgress))).map Issue.id).Nodup :=
    hnd.sublist ((List.filter_sublist l).map Issue.id)
  have hfresh : ∀ i ∈ l.filter (fun issue =>
      decide (issue.id ∉ s.processed ∧ issue.id ∉ s.inProgress)), i.id ∉ s.processed := by
    intro i hi
    have hp := (List.mem_filter.mp hi).2
    simp only [decide_eq_true_eq] at hp
    exact hp.1
  obtain ⟨g1, g2, _⟩ := processList_invariant run
    (l.filter (fun issue => decide (issue.id ∉ s.processed ∧ issue.id ∉ s.inProgress)))
    s hdisj' hfresh hndf
  rw [heq]
  constructor
  · intro snap hsnap
    exact Finset.eq_empty_iff_forall_not_mem.mpr
      (fun x hx => g2 snap hsnap x (Finset.mem_inter.mp hx))
  · exact Finset.eq_empty_iff_forall_not_mem.mpr
      (fun x hx => g1 x (Finset.mem_inter.mp hx))

/-- Witness for C5: one cycle over a single Todo candidate starting from the
empty state keeps every saved snapshot exclusive. -/
theorem claim5_snapshot_exclusivity_witness :
    (∀ snap ∈ (process_new_issues (fun i => process_issue envOkBase i) ⟨∅, ∅⟩
        (Except.ok [issueX])).2.1,
      snap.processed ∩ snap.inProgress = ∅) ∧
    (process_new_issues (fun i => process_issue envOkBase i) ⟨∅, ∅⟩
        (Except.ok [issueX])).1.processed ∩
      (process_new_issues (fun i => process_issue envOkBase i) ⟨∅, ∅⟩
        (Except.ok [issueX])).1.inProgress = ∅ :=
  claim5_snapshot_exclusivity (fun i => process_issue envOkBase i) ⟨∅, ∅⟩ [issueX]
    (by decide) (by decide)

/-- C6: a ticket id already present in the processed set or the in-progress
set at the start of a poll cycle — including ids loaded from the snapshot
file at startup — is filtered out of the candidate list and never dispatched
to `process_issue` during that cycle; `load_state` places every id of a
parsed snapshot file into the corresponding set. -/
theorem claim6_no_redispatch (run : String → Except String (Outcome × List Event))
    (s : PollState) (fetch : Except String (List Issue)) (ticketId : String)
    (h : ticketId ∈ s.processed ∨ ticketId ∈ s.inProgress) :
    ticketId ∉ (process_new_issues run s fetch).2.2 ∧
    (∀ pl il : List String, ∀ x,
      (x ∈ pl → x ∈ (load_state (some (Except.ok (pl, il)))).processed) ∧
      (x ∈ il → x ∈ (load_state (some (Except.ok (pl, il)))).inProgress)) := by
  constructor
  · cases fetch with
    | error e =>
      simp [process_new_issues]
    | ok l =>
      intro hmem
      have heq : process_new_issues run s (Except.ok l) = processList run s
          (l.filter (fun issue => decide (issue.id ∉ s.processed ∧ issue.id ∉ s.inProgress))) :=
        rfl
      rw [heq] at hmem
      have hsub := processList_dispatch_subset run
        (l.filter (fun issue => decide (issue.id ∉ s.processed ∧ issue.id ∉ s.inProgress)))
        s ticketId hmem
      obtain ⟨i, hif, hid⟩ := List.mem_map.mp hsub
      have hp := (List.mem_filter.mp hif).2
      simp only [decide_eq_true_eq] at hp
      obtain ⟨hnp, hni⟩ := hp
      cases h with
      | inl hp => exact hnp (hid ▸ hp)
      | inr hip => exact hni (hid ▸ hip)
  · intro pl il x
    constructor <;> intro hx <;> simp [load_state, List.mem_toFinset, hx]

/-- Witness for C6: with ticket `X1` already in progress, a cycle fetching
`X1` again dispatches nothing, and loaded snapshot ids land in the loaded
sets. -/
theorem claim6_no_redispatch_witness :
    issueX.id ∉ (process_new_issues (fun i => process_issue envOkBase i)
      ⟨∅, {issueX.id}⟩ (Except.ok [issueX])).2.2 ∧
    (∀ pl il : List String, ∀ x,
      (x ∈ pl → x ∈ (load_state (some (Except.ok (pl, il)))).processed) ∧
      (x ∈ il → x ∈ (load_state (some (Except.ok (pl, il)))).inProgress)) :=
  claim6_no_redispatch (fun i => process_issue envOkBase i) ⟨∅, {issueX.id}⟩
    (Except.ok [issueX]) issueX.id (Or.inr (by decide))

/-- C8: when the generation step modifies no files, the run posts the
no-changes comment, reverts the tracker status to Todo (whose id resolves),
finishes as `NoChanges`, and never attempts evaluation, commit, push, or
pull-request creation. -/
theorem claim8_no_changes_terminates_early (env : Env) (issueId : String) (issue : Issue)
    (ipid fd res tid : String)
    (hdet : env.getIssueDetails = Except.ok issue)
    (hc1 : ∃ b, env.createComment issueId initialCommentBody = Except.ok b)
    (hip : env.getStatusIdByName issue.teamId statusInProgressName = Except.ok (some ipid))
    (hup : ∃ b, env.updateIssueStatus issueId ipid = Except.ok b)
    (hdesc : descOf issue ≠ "")
    (hfmt : env.formatIssueDescription (descOf issue) = Except.ok fd)
    (hcl : env.ensureRepoCloned = Except.ok ())
    (hbr : env.createAndCheckoutBranch (branchOf issue) = Except.ok ())
    (hgen : env.runCodeGeneration (descOf issue) fd = Except.ok res)
    (hmods : env.getModifiedFiles = Except.ok ([] : List String))
    (hc2 : ∃ b, env.createComment issueId noChangesCommentBody = Except.ok b)
    (htodo : env.getStatusIdByName issue.teamId statusTodoName = Except.ok (some tid))
    (hupt : ∃ b, env.updateIssueStatus issueId tid = Except.ok b) :
    ∃ evts, process_issue env issueId = Except.ok (Outcome.noChanges, evts) ∧
      Event.comment noChangesCommentBody ∈ evts ∧
      Event.statusUpdate tid ∈ evts ∧
      hasEvalCall evts = false ∧ hasCommitCall evts = false ∧
      hasPush evts = false ∧ hasPrCreate evts = false := by
  obtain ⟨b2, hb2⟩ := hc2
  obtain ⟨b3, hb3⟩ := hupt
  have hbody := body_reaches_detect env issueId issue ipid fd res [] hdet hc1 hip hup hdesc
    hfmt hcl hbr hgen hmods
  simp only [List.length_nil, if_pos] at hbody
  have hnc : handleNoChanges env issueId issue (preDetectTrace ipid issue) =
      Except.ok (Outcome.noChanges,
        preDetectTrace ipid issue ++ [Event.comment noChangesCommentBody] ++
          [Event.statusUpdate tid]) := by
    simp [handleNoChanges, hb2, htodo, hb3]
  refine ⟨preDetectTrace ipid issue ++ [Event.comment noChangesCommentBody] ++
    [Event.statusUpdate tid], ?_, ?_, ?_, ?_, ?_, ?_, ?_⟩
  · simp [process_issue, hbody, hnc]
  · simp
  · simp
  · simp [hasEvalCall, preDetectTrace]
  · simp [hasCommitCall, preDetectTrace]
  · simp [hasPush, preDetectTrace]
  · simp [hasPrCreate, preDetectTrace]

/-- Witness for C8 at the concrete zero-modified-files environment. -/
theorem claim8_no_changes_terminates_early_witness :
    ∃ evts, process_issue envNoChanges issueX.id = Except.ok (Outcome.noChanges, evts) ∧
      Event.comment noChangesCommentBody ∈ evts ∧
      Event.statusUpdate (statusIdFor statusTodoName) ∈ evts ∧
      hasEvalCall evts = false ∧ hasCommitCall evts = false ∧
      hasPush evts = false ∧ hasPrCreate evts = false :=
  claim8_no_changes_terminates_early envNoChanges issueX.id issueX
    (statusIdFor statusInProgressName) (descOf issueX ++ " (formatted)")
    "generation summary" (statusIdFor statusTodoName)
    rfl ⟨true, rfl⟩ rfl ⟨true, rfl⟩ (by decide) rfl rfl rfl rfl rfl
    ⟨true, rfl⟩ rfl ⟨true, rfl⟩

/-- C9: when the evaluation succeeds but `commit_changes` reports nothing to
commit (returns false), the run posts the no-commit comment and finishes as
`nothingToCommit`, without pushing the branch and without opening a pull
request. -/
theorem claim9_nothing_to_commit_no_publish (env : Env) (issueId : String) (issue : Issue)
    (ipid fd res reasoning cm pd : String) (mods : List String)
    (hdet : env.getIssueDetails = Except.ok issue)
    (hc1 : ∃ b, env.createComment issueId initialCommentBody = Except.ok b)
    (hip : env.getStatusIdByName issue.teamId statusInProgressName = Except.ok (some ipid))
    (hup : ∃ b, env.updateIssueStatus issueId ipid = Except.ok b)
    (hdesc : descOf issue ≠ "")
    (hfmt : env.formatIssueDescription (descOf issue) = Except.ok fd)
    (hcl : env.ensureRepoCloned = Except.ok ())
    (hbr : env.createAndCheckoutBranch (branchOf issue) = Except.ok ())
    (hgen : env.runCodeGeneration (descOf issue) fd = Except.ok res)
    (hmods : env.getModifiedFiles = Except.ok mods)
    (hne : mods.length ≠ 0)
    (heval : env.evalResponse fd res mods = Except.ok (EvalResponse.wellFormed true reasoning))
    (hdraft : env.draftResponse fd res mods = Except.ok (DraftResponse.wellFormed cm pd))
    (hcommit : env.commitChanges cm = Except.ok false)
    (hc3 : ∃ b, env.createComment issueId noCommitCommentBody = Except.ok b) :
    ∃ evts, process_issue env issueId = Except.ok (Outcome.nothingToCommit, evts) ∧
      Event.comment noCommitCommentBody ∈ evts ∧
      hasPush evts = false ∧ hasPrCreate evts = false := by
  obtain ⟨b3, hb3⟩ := hc3
  have hbody := body_reaches_detect env issueId issue ipid fd res mods hdet hc1 hip hup hdesc
    hfmt hcl hbr hgen hmods
  rw [if_neg hne] at hbody
  have hpub : evaluateAndPublish env issueId issue fd res mods (preDetectTrace ipid issue) =
      Except.ok (Outcome.nothingToCommit,
        preDetectTrace ipid issue ++ [Event.evalCall] ++ [Event.draftCall] ++
          [Event.commitCall] ++ [Event.comment noCommitCommentBody]) := by
    simp [evaluateAndPublish, publishResult, evaluate_result, generate_pr_content,
      heval, hdraft, hcommit, hb3]
  refine ⟨preDetectTrace ipid issue ++ [Event.evalCall] ++ [Event.draftCall] ++
    [Event.commitCall] ++ [Event.comment noCommitCommentBody], ?_, ?_, ?_, ?_⟩
  · simp [process_issue, hbody, hpub]
  · simp
  · simp [hasPush, preDetectTrace]
  · simp [hasPrCreate, preDetectTrace]

/-- Witness for C9 at the concrete nothing-to-commit environment. -/
theorem claim9_nothing_to_commit_no_publish_witness :
    ∃ evts, process_issue envCommitNothing issueX.id =
        Except.ok (Outcome.nothingToCommit, evts) ∧
      Event.comment noCommitCommentBody ∈ evts ∧
      hasPush evts = false ∧ hasPrCreate evts = false :=
  claim9_nothing_to_commit_no_publish envCommitNothing issueX.id issueX
    (statusIdFor statusInProgressName) (descOf issueX ++ " (formatted)")
    "generation summary" "looks good" "fix: bug" "pr body" ["M a.go"]
    rfl ⟨true, rfl⟩ rfl ⟨true, rfl⟩ (by decide) rfl rfl rfl rfl rfl
    (by decide) rfl rfl rfl ⟨true, rfl⟩

/-- C4 counterexample: a malformed draft (commit-message / PR-description)
response does not end the workflow in a failure — with every other
collaborator succeeding, the run finishes as `success`, pushing the branch
and creating the pull request with the fallback draft text. -/
theorem claim4_counterexample :
    outcomeOf (process_issue envDraftMalformed issueX.id) = some Outcome.success ∧
    hasPush (traceOf (process_issue envDraftMalformed issueX.id)) = true ∧
    hasPrCreate (traceOf (process_issue envDraftMalformed issueX.id)) = true := by
  refine ⟨rfl, by decide, by decide⟩

/-- C4 amended: a malformed evaluation response is treated as an evaluation
failure with the specific message `Error evaluating result: ...` — the run
takes the evaluation-failed path, posts the failure comment and reverts the
status to Todo, and does not crash, push, or open a request; a malformed
draft response, by contrast, is replaced by the hard-coded fallback commit
message and PR description and the workflow continues (it neither crashes
nor fails). -/
theorem claim4_malformed_response_handling (env : Env) (issueId : String) (issue : Issue)
    (ipid fd res e e2 tid : String) (mods : List String)
    (hdet : env.getIssueDetails = Except.ok issue)
    (hc1 : ∃ b, env.createComment issueId initialCommentBody = Except.ok b)
    (hip : env.getStatusIdByName issue.teamId statusInProgressName = Except.ok (some ipid))
    (hup : ∃ b, env.updateIssueStatus issueId ipid = Except.ok b)
    (hdesc : descOf issue ≠ "")
    (hfmt : env.formatIssueDescription (descOf issue) = Except.ok fd)
    (hcl : env.ensureRepoCloned = Except.ok ())
    (hbr : env.createAndCheckoutBranch (branchOf issue) = Except.ok ())
    (hgen : env.runCodeGeneration (descOf issue) fd = Except.ok res)
    (hmods : env.getModifiedFiles = Except.ok mods)
    (hne : mods.length ≠ 0)
    (heval : env.evalResponse fd res mods = Except.ok (EvalResponse.malformed e))
    (hc4 : ∃ b, env.createComment issueId
      (evalFailedCommentBody (evalErrorMessage e) res) = Except.ok b)
    (htodo : env.getStatusIdByName issue.teamId statusTodoName = Except.ok (some tid))
    (hupt : ∃ b, env.updateIssueStatus issueId tid = Except.ok b) :
    evaluate_result (Except.ok (EvalResponse.malformed e)) =
      Except.ok (false, evalErrorMessage e) ∧
    generate_pr_content (Except.ok (DraftResponse.malformed e2)) =
      Except.ok (fallbackCommitMessage, fallbackPrDescription) ∧
    ∃ evts, process_issue env issueId = Except.ok (Outcome.evalFailed, evts) ∧
      Event.comment (evalFailedCommentBody (evalErrorMessage e) res) ∈ evts ∧
      Event.statusUpdate tid ∈ evts ∧
      hasPush evts = false ∧ hasPrCreate evts = false := by
  obtain ⟨b4, hb4⟩ := hc4
  obtain ⟨b5, hb5⟩ := hupt
  have hbody := body_reaches_detect env issueId issue ipid fd res mods hdet hc1 hip hup hdesc
    hfmt hcl hbr hgen hmods
  rw [if_neg hne] at hbody
  have hpub : evaluateAndPublish env issueId issue fd res mods (preDetectTrace ipid issue) =
      Except.ok (Outcome.evalFailed,
        preDetectTrace ipid issue ++ [Event.evalCall] ++
          [Event.comment (evalFailedCommentBody (evalErrorMessage e) res)] ++
          [Event.statusUpdate tid]) := by
    simp [evaluateAndPublish, reportEvalFailure, evaluate_result, heval, hb4, htodo, hb5]
  refine ⟨rfl, rfl, preDetectTrace ipid issue ++ [Event.evalCall] ++
    [Event.comment (evalFailedCommentBody (evalErrorMessage e) res)] ++
    [Event.statusUpdate tid], ?_, ?_, ?_, ?_, ?_⟩
  · simp [process_issue, hbody, hpub]
  · simp
  · simp
  · simp [hasPush, preDetectTrace]
  · simp [hasPrCreate, preDetectTrace]

/-- Witness for C4's amended statement at the concrete malformed-evaluation
environment. -/
theorem claim4_malformed_response_handling_witness :
    evaluate_result (Except.ok (EvalResponse.malformed "bad json")) =
      Except.ok (false, evalErrorMessage "bad json") ∧
    generate_pr_content (Except.ok (DraftResponse.malformed "bad json")) =
      Except.ok (fallbackCommitMessage, fallbackPrDescription) ∧
    ∃ evts, process_issue envEvalMalformed issueX.id =
        Except.ok (Outcome.evalFailed, evts) ∧
      Event.comment (evalFailedCommentBody (evalErrorMessage "bad json")
        "generation summary") ∈ evts ∧
      Event.statusUpdate (statusIdFor statusTodoName) ∈ evts ∧
      hasPush evts = false ∧ hasPrCreate evts = false :=
  claim4_malformed_response_handling envEvalMalformed issueX.id issueX
    (statusIdFor statusInProgressName) (descOf issueX ++ " (formatted)")
    "generation summary" "bad json" "bad json" (statusIdFor statusTodoName) ["M a.go"]
    rfl ⟨true, rfl⟩ rfl ⟨true, rfl⟩ (by decide) rfl rfl rfl rfl rfl
    (by decide) rfl ⟨true, rfl⟩ rfl ⟨true, rfl⟩

end ClaudeCodeBot
